import Mathlib

/-!
Verification of the streaming JSON → SQLite record loader
(`public/workers/db-worker.js`).

The worker's pure data transformations (flattening, type inference,
schema building, identifier sanitization) are embedded directly; its
stateful pipeline (sampling, table materialization, pending-column
migrations, batched transactional inserts, finalization, export) is
embedded as explicit state passing over a `WState` record, with the
external SQL engine modelled by a `Db` record plus transactional
commit/rollback semantics, and engine-side insert failures modelled by
an oracle on the global statement counter.

JSON scalars: JavaScript numbers are modelled as rationals (`Rat`);
`Number.isInteger` becomes "denominator = 1".  The streaming boundary
scanner and the JSON parser live in an external library
(`@streamparser/json-whatwg`), so they are modelled from the spec where
a claim needs them (see `scanStep` and `parseJson`).
-/

/-- A flat scalar cell value: the value domain of a flattened row. -/
inductive Scalar where
  | null
  | bool (b : Bool)
  | num (q : Rat)
  | str (s : String)
deriving DecidableEq, Repr

/-- A parsed JSON value, as delivered by the streaming parser. -/
inductive JValue where
  | null
  | bool (b : Bool)
  | num (q : Rat)
  | str (s : String)
  | arr (elems : List JValue)
  | obj (fields : List (String × JValue))

/-- Lower-case hexadecimal digit, for JSON string escapes. -/
def hexDigit (n : Nat) : Char :=
  if n < 10 then Char.ofNat (48 + n) else Char.ofNat (87 + n)

/-- JSON escaping of one character, as `JSON.stringify` performs it. -/
def escapeChar (c : Char) : String :=
  if c = '"' then "\\\""
  else if c = '\\' then "\\\\"
  else if c = Char.ofNat 8 then "\\b"
  else if c = Char.ofNat 9 then "\\t"
  else if c = Char.ofNat 10 then "\\n"
  else if c = Char.ofNat 12 then "\\f"
  else if c = Char.ofNat 13 then "\\r"
  else if c.toNat < 32 then
    String.mk ['\\', 'u', '0', '0', hexDigit (c.toNat / 16), hexDigit (c.toNat % 16)]
  else String.singleton c

/-- JSON escaping of a whole string body (without the surrounding quotes). -/
def escapeString (s : String) : String :=
  String.join (s.toList.map escapeChar)

/-- Decimal digits of `r / d` by long division, `fuel` bounding the length.
Doubles that round-trip as short decimals terminate well within the fuel. -/
def fracDigitChars (fuel : Nat) (r d : Nat) : List Char :=
  match fuel with
  | 0 => []
  | fuel + 1 =>
    if r = 0 then []
    else
      let r10 := r * 10
      Char.ofNat (48 + r10 / d) :: fracDigitChars fuel (r10 % d) d

/-- JavaScript `Number`-to-string conversion as used by `JSON.stringify`,
modelled for rationals with terminating decimal expansions (the only
values an exact double in the data can take). -/
def ratToJsString (q : Rat) : String :=
  if q.den = 1 then toString q.num
  else
    let sign := if q.num < 0 then "-" else ""
    let n := q.num.natAbs
    let d := q.den
    sign ++ toString (n / d) ++ "." ++ String.mk (fracDigitChars 64 (n % d) d)

mutual

/-- Model of `JSON.stringify` on parsed JSON values (the worker applies it
to array values during flattening). -/
def jsonStringify : JValue → String
  | .null => "null"
  | .bool true => "true"
  | .bool false => "false"
  | .num q => ratToJsString q
  | .str s => "\"" ++ escapeString s ++ "\""
  | .arr xs => "[" ++ jsonStringifyElems xs ++ "]"
  | .obj fs => "\x7b" ++ jsonStringifyFields fs ++ "\x7d"

/-- Comma-separated serialization of array elements. -/
def jsonStringifyElems : List JValue → String
  | [] => ""
  | [x] => jsonStringify x
  | x :: y :: rest => jsonStringify x ++ "," ++ jsonStringifyElems (y :: rest)

/-- Comma-separated serialization of object fields. -/
def jsonStringifyFields : List (String × JValue) → String
  | [] => ""
  | [(k, v)] => "\"" ++ escapeString k ++ "\":" ++ jsonStringify v
  | (k, v) :: f :: rest =>
      "\"" ++ escapeString k ++ "\":" ++ jsonStringify v ++ "," ++ jsonStringifyFields (f :: rest)

end

/-- A flattened row: ordered key/value pairs, keys unique by construction
(a JavaScript object used as a dictionary). -/
abbrev Row := List (String × Scalar)

/-- JavaScript property assignment `row[k] = v`: updating an existing key
keeps its position, a new key is appended. -/
def setKey (r : Row) (k : String) (v : Scalar) : Row :=
  if r.any (fun p => p.1 = k) then
    r.map (fun p => if p.1 = k then (k, v) else p)
  else r ++ [(k, v)]

/-- Key-path join used by the flattener: `prefix ? prefix + "_" + key : key`. -/
def joinKey (pre k : String) : String :=
  if pre = "" then k else pre ++ "_" ++ k

mutual

/-- `flattenObject`'s `for (key in obj)` loop: flatten each field in order
into the accumulated row. -/
def flattenInto (pre : String) : List (String × JValue) → Row → Row
  | [], acc => acc
  | (k, v) :: rest, acc => flattenInto pre rest (flattenOne pre k v acc)

/-- One iteration of the flattening loop, for key `k` with value `v`:
null stays null, arrays become their JSON text, nested objects recurse
with the joined key as the new path prefix, scalars are copied as-is. -/
def flattenOne (pre k : String) (v : JValue) (acc : Row) : Row :=
  match v with
  | .null => setKey acc (joinKey pre k) .null
  | .bool b => setKey acc (joinKey pre k) (.bool b)
  | .num q => setKey acc (joinKey pre k) (.num q)
  | .str s => setKey acc (joinKey pre k) (.str s)
  | .arr xs => setKey acc (joinKey pre k) (.str (jsonStringify (.arr xs)))
  | .obj fs => flattenInto (joinKey pre k) fs acc

end

/-- `flattenObject(obj)` on a parsed top-level value.  `for...in` over an
array or string primitive enumerates index keys; other primitives have no
enumerable properties and flatten to the empty row. -/
def flattenObject : JValue → Row
  | .obj fs => flattenInto "" fs []
  | .arr xs => flattenInto "" (xs.enum.map (fun p => (toString p.1, p.2))) []
  | .str s =>
      flattenInto ""
        ((s.toList.enum).map (fun p => (toString p.1, JValue.str (String.singleton p.2)))) []
  | _ => []

/-- `detectType`: SQLite type inferred from one JavaScript value.
`null → TEXT`; integral number → INTEGER; fractional number → REAL;
boolean → INTEGER; everything else → TEXT. -/
def detectType : Scalar → String
  | .null => "TEXT"
  | .num q => if q.den = 1 then "INTEGER" else "REAL"
  | .bool _ => "INTEGER"
  | .str _ => "TEXT"

/-- A {name, type} column spec as kept by the schema builder and schema. -/
structure Column where
  name : String
  type : String
deriving DecidableEq, Repr

/-- One key/value observation by `schemaBuilder.add`: a new key inserts a
column with the detected type; for a known key, a differing detected type
on a non-null value rewrites the column's type to TEXT. -/
def sbObserve (cols : List Column) (key : String) (value : Scalar) : List Column :=
  let t := detectType value
  match cols.find? (fun c => c.name = key) with
  | none => cols ++ [⟨key, t⟩]
  | some c =>
    if c.type ≠ t ∧ value ≠ Scalar.null then
      cols.map (fun c2 => if c2.name = key then ⟨key, "TEXT"⟩ else c2)
    else cols

/-- `schemaBuilder.add(obj)`: fold `sbObserve` over the row's fields. -/
def schemaBuilderAdd (cols : List Column) (row : Row) : List Column :=
  row.foldl (fun cs kv => sbObserve cs kv.1 kv.2) cols

/-- Type recorded by the builder (or schema) for a column name. -/
def lookupType (cols : List Column) (key : String) : Option String :=
  (cols.find? (fun c => c.name = key)).map Column.type

/-- `sanitize`: replace every character outside `[a-zA-Z0-9_]` with `_`. -/
def sanitize (name : String) : String :=
  String.mk (name.data.map (fun c => if c.isAlphanum ∨ c = '_' then c else '_'))

/-- The external SQL engine's committed state: the single table's name,
whether `CREATE TABLE` has run, its (sanitized) column names in order, and
its committed rows (positional; `ALTER TABLE ADD COLUMN` backfills NULL). -/
structure Db where
  tname : String
  created : Bool
  cols : List String
  rows : List (List Scalar)
deriving DecidableEq, Repr

/-- A fresh engine with no table. -/
def emptyDb : Db := ⟨"", false, [], []⟩

/-- Engine execution of `CREATE TABLE`: fails if the table already exists
or the column list repeats a (sanitized) name. -/
def dbCreateTable (db : Db) (tn : String) (names : List String) : Except String Db :=
  if db.created then .error "table already exists"
  else if names.Nodup then .ok ⟨tn, true, names, []⟩
  else .error "duplicate column name"

/-- Engine execution of `ALTER TABLE ADD COLUMN`: fails without a table or
on a duplicate column name; on success existing rows are backfilled NULL. -/
def dbAlterAdd (db : Db) (name : String) : Except String Db :=
  if ¬ db.created then .error "no such table"
  else if name ∈ db.cols then .error ("duplicate column name: " ++ name)
  else .ok { db with cols := db.cols ++ [name],
                     rows := db.rows.map (fun r => r ++ [Scalar.null]) }

/-- The worker's module-level mutable state, plus instrumentation the
claims talk about: executed ALTER count, reported errors, and the
completion report. -/
structure WState where
  tableName : String
  sampleSize : Nat
  batchSize : Nat
  builder : List Column
  schema : Option (List Column)
  objectCount : Nat
  rowsProcessed : Nat
  currentBatch : List Row
  existingColumnsSet : List String
  pendingColumns : List Column
  db : Db
  stmtCount : Nat
  alterCount : Nat
  errors : List String
  completed : Option Nat
deriving DecidableEq, Repr

/-- State after the `init` message: configuration with JavaScript falsy
defaults (`data.tableName || 'data'` etc.) and fresh module state. -/
def initState (tn : String) (sample batch : Nat) : WState :=
  { tableName := if tn = "" then "data" else tn
    sampleSize := if sample = 0 then 100 else sample
    batchSize := if batch = 0 then 1000 else batch
    builder := []
    schema := none
    objectCount := 0
    rowsProcessed := 0
    currentBatch := []
    existingColumnsSet := []
    pendingColumns := []
    db := emptyDb
    stmtCount := 0
    alterCount := 0
    errors := []
    completed := none }

/-- `createTable()`: the module `schema` variable is assigned from the
builder *before* the emptiness check, so it is set (possibly to the empty
list) even on the error paths; the membership set is initialized only
after the DDL succeeds. -/
def createTable (st : WState) : WState :=
  let sch := st.builder
  let st := { st with schema := some sch }
  if sch.isEmpty then
    { st with errors := st.errors ++ ["No schema could be detected from sample data"] }
  else
    match dbCreateTable st.db st.tableName (sch.map (fun c => sanitize c.name)) with
    | .ok db2 =>
        { st with db := db2, existingColumnsSet := sch.map Column.name }
    | .error e =>
        { st with errors := st.errors ++ ["Failed to create table: " ++ e] }

/-- One key of `checkAndAddNewColumns`'s loop: a key absent from the
membership set is appended to the pending queue with a one-shot detected
type, and enters the membership set immediately. -/
def caStep (st : WState) (kv : String × Scalar) : WState :=
  if st.existingColumnsSet.contains kv.1 then st
  else
    { st with
        pendingColumns := st.pendingColumns ++ [⟨kv.1, detectType kv.2⟩],
        existingColumnsSet := st.existingColumnsSet ++ [kv.1] }

/-- `checkAndAddNewColumns(obj)`: scan the row's keys for columns not yet
known (a no-op before the schema exists). -/
def checkAndAddNewColumns (st : WState) (row : Row) : WState :=
  if st.schema.isNone then st
  else row.foldl caStep st

/-- Result of the ALTER loop inside `applyPendingColumns`: the tentative
engine state (or the error), the columns pushed onto the live `schema`
array before any failure, and the number of ALTER statements executed. -/
structure AlterResult where
  outcome : Except String Db
  pushed : List Column
  alters : Nat

/-- The `for (const col of pendingColumns)` loop: each column's ALTER runs
against the tentative (in-transaction) engine state, and on success the
column is pushed onto the live schema; the first failure aborts the loop. -/
def applyColsLoop (db : Db) : List Column → AlterResult
  | [] => ⟨.ok db, [], 0⟩
  | c :: rest =>
    match dbAlterAdd db (sanitize c.name) with
    | .error e => ⟨.error e, [], 1⟩
    | .ok db2 =>
      let r := applyColsLoop db2 rest
      ⟨r.outcome, c :: r.pushed, r.alters + 1⟩

/-- `applyPendingColumns()`: the ALTERs run inside their own
BEGIN/COMMIT; on failure the engine rolls back, but the columns already
pushed onto the JavaScript `schema` array stay there and the pending
queue is not cleared (it is cleared only after COMMIT). -/
def applyPendingColumns (st : WState) : WState :=
  if st.pendingColumns.isEmpty then st
  else
    match st.schema with
    | none => st
    | some sch =>
      let r := applyColsLoop st.db st.pendingColumns
      match r.outcome with
      | .ok db2 =>
          { st with db := db2, schema := some (sch ++ st.pendingColumns),
                    pendingColumns := [], alterCount := st.alterCount + r.alters }
      | .error e =>
          { st with schema := some (sch ++ r.pushed),
                    alterCount := st.alterCount + r.alters,
                    errors := st.errors ++ ["Failed to add new columns: " ++ e] }

/-- Positional values for one row: for each schema column, look the raw
key up in the row; missing/null → NULL, booleans → 1/0, else as-is. -/
def rowValues (sch : List Column) (row : Row) : List Scalar :=
  sch.map (fun c =>
    match row.find? (fun kv => kv.1 = c.name) with
    | none => Scalar.null
    | some kv =>
      match kv.2 with
      | .null => Scalar.null
      | .bool b => Scalar.num (if b then 1 else 0)
      | v => v)

/-- The per-row `stmt.run(values)` loop: the engine failure oracle `eng`
says whether the statement with a given global index throws.  Returns the
successfully staged rows or the error, plus statements executed. -/
def insertLoop (eng : Nat → Bool) (start : Nat) : List (List Scalar) →
    Except String (List (List Scalar)) × Nat
  | [] => (.ok [], 0)
  | v :: rest =>
    if eng start then (.error "constraint failed", 1)
    else
      let r := insertLoop eng (start + 1) rest
      (r.1.map (fun vs => v :: vs), r.2 + 1)

/-- `insertBatch()`: prepare fails if some schema column is missing from
the table; otherwise the rows run one statement each inside one
BEGIN/COMMIT.  On success the batch is cleared and the row count
reported; on any failure the transaction rolls back and the batch is
left in place. -/
def insertBatch (eng : Nat → Bool) (st : WState) : WState :=
  if st.currentBatch.isEmpty then st
  else
    match st.schema with
    | none => st
    | some sch =>
      if ¬ st.db.created ∨ ¬ (sch.map (fun c => sanitize c.name)).all (fun n => st.db.cols.contains n) then
        { st with errors := st.errors ++ ["Failed to insert batch: no such column"] }
      else
        let vals := st.currentBatch.map (rowValues sch)
        let r := insertLoop eng st.stmtCount vals
        match r.1 with
        | .ok staged =>
            { st with db := { st.db with rows := st.db.rows ++ staged },
                      rowsProcessed := st.rowsProcessed + st.currentBatch.length,
                      currentBatch := [],
                      stmtCount := st.stmtCount + r.2 }
        | .error e =>
            { st with errors := st.errors ++ ["Failed to insert batch: " ++ e],
                      stmtCount := st.stmtCount + r.2 }

/-- The post-materialization part of `processObject`: record any new
columns, push the row onto the batch, and flush (pending migrations,
then inserts) once the batch is full. -/
def batchPhase (eng : Nat → Bool) (st : WState) (flat : Row) : WState :=
  let st := checkAndAddNewColumns st flat
  let st := { st with currentBatch := st.currentBatch ++ [flat] }
  if st.batchSize ≤ st.currentBatch.length then insertBatch eng (applyPendingColumns st)
  else st

/-- `processObject(obj)`: count, flatten, sample-build, materialize at the
threshold, then batch and flush when full. -/
def processObject (eng : Nat → Bool) (st : WState) (v : JValue) : WState :=
  let st := { st with objectCount := st.objectCount + 1 }
  let flat := flattenObject v
  let st :=
    if st.schema.isNone ∧ st.objectCount < st.sampleSize then
      { st with builder := schemaBuilderAdd st.builder flat }
    else st
  let st :=
    if st.schema.isNone ∧ st.sampleSize ≤ st.objectCount then createTable st else st
  if st.schema.isSome then batchPhase eng st flat
  else st

/-- Fold `processObject` over a stream of parsed objects. -/
def runObjects (eng : Nat → Bool) (st : WState) (objs : List JValue) : WState :=
  objs.foldl (processObject eng) st

/-- `finalizeProcessing()`: create the table for short streams, apply any
pending columns, flush the remainder, and report the completion total. -/
def finalizeProcessing (eng : Nat → Bool) (st : WState) : WState :=
  let st := if st.schema.isNone ∧ 0 < st.objectCount then createTable st else st
  let st := applyPendingColumns st
  let st := if st.currentBatch.length > 0 then insertBatch eng st else st
  { st with completed := some st.rowsProcessed }

/-- A full run: all objects of the stream, then end-of-stream finalization. -/
def runStream (eng : Nat → Bool) (st : WState) (objs : List JValue) : WState :=
  finalizeProcessing eng (runObjects eng st objs)

/-- Modelled from the spec: the Boundary Scanner's carried state (the
streaming parse lives in the external `@streamparser/json-whatwg`
library, absent from the repository): in-string flag, pending-escape
flag, brace nesting depth, the buffered text of the currently open
top-level object, and the object texts emitted so far. -/
structure ScanState where
  inString : Bool
  escapeNext : Bool
  depth : Nat
  current : List Char
  emitted : List (List Char)
deriving DecidableEq, Repr

/-- The scanner's initial state for a fresh stream. -/
def scanInit : ScanState := ⟨false, false, 0, [], []⟩

/-- Modelled from the spec: one character step of the Boundary Scanner.
An unescaped `"` toggles the in-string flag; a `\` sets the escape flag
for exactly the next character; braces adjust depth only outside
strings; the 0→1 depth transition starts a candidate object, the 1→0
transition emits it; separator text at depth 0 is discarded. -/
def scanStep (st : ScanState) (c : Char) : ScanState :=
  let buf := fun (s : ScanState) => if s.depth > 0 then { s with current := s.current ++ [c] } else s
  if st.inString then
    if st.escapeNext then { buf st with escapeNext := false }
    else if c = '\\' then { buf st with escapeNext := true }
    else if c = '"' then { buf st with inString := false }
    else buf st
  else if c = '"' then { buf st with inString := true }
  else if c = '{' then
    if st.depth = 0 then { st with depth := 1, current := [c] }
    else { st with depth := st.depth + 1, current := st.current ++ [c] }
  else if c = '}' then
    if st.depth = 1 then
      { st with depth := 0, emitted := st.emitted ++ [st.current ++ [c]], current := [] }
    else if st.depth > 1 then { st with depth := st.depth - 1, current := st.current ++ [c] }
    else st
  else buf st

/-- Modelled from the spec: `feed(text)` — scan a chunk character by
character, carrying the state across calls. -/
def scanFeed (st : ScanState) (chunk : List Char) : ScanState :=
  chunk.foldl scanStep st

/-- Feeding a whole sequence of chunks in arrival order. -/
def scanChunks (chunks : List (List Char)) : ScanState :=
  chunks.foldl scanFeed scanInit

/-- JSON whitespace. -/
def isJsonWs (c : Char) : Bool :=
  c = ' ' ∨ c = '\n' ∨ c = '\t' ∨ c = '\r'

/-- Drop leading JSON whitespace. -/
def skipWs : List Char → List Char
  | [] => []
  | c :: rest => if isJsonWs c then skipWs rest else c :: rest

/-- Value of one hexadecimal digit, if any. -/
def hexVal (c : Char) : Option Nat :=
  if '0' ≤ c ∧ c ≤ '9' then some (c.toNat - 48)
  else if 'a' ≤ c ∧ c ≤ 'f' then some (c.toNat - 87)
  else if 'A' ≤ c ∧ c ≤ 'F' then some (c.toNat - 55)
  else none

/-- Modelled from the spec: JSON string-literal body (after the opening
quote), with the standard escapes. -/
def parseStringBody : Nat → List Char → Option (List Char × List Char)
  | 0, _ => none
  | _, [] => none
  | fuel + 1, c :: rest =>
    if c = '"' then some ([], rest)
    else if c = '\\' then
      match rest with
      | [] => none
      | e :: rest2 =>
        let cont := fun (decoded : Char) (rem : List Char) =>
          (parseStringBody fuel rem).map (fun r => (decoded :: r.1, r.2))
        if e = '"' then cont '"' rest2
        else if e = '\\' then cont '\\' rest2
        else if e = '/' then cont '/' rest2
        else if e = 'b' then cont (Char.ofNat 8) rest2
        else if e = 'f' then cont (Char.ofNat 12) rest2
        else if e = 'n' then cont (Char.ofNat 10) rest2
        else if e = 'r' then cont (Char.ofNat 13) rest2
        else if e = 't' then cont (Char.ofNat 9) rest2
        else if e = 'u' then
          match rest2 with
          | h1 :: h2 :: h3 :: h4 :: rest3 =>
            match hexVal h1, hexVal h2, hexVal h3, hexVal h4 with
            | some a, some b, some c2, some d =>
                cont (Char.ofNat (a * 4096 + b * 256 + c2 * 16 + d)) rest3
            | _, _, _, _ => none
          | _ => none
        else none
    else (parseStringBody fuel rest).map (fun r => (c :: r.1, r.2))

/-- Leading run of decimal digits. -/
def takeDigits : List Char → List Char × List Char
  | [] => ([], [])
  | c :: rest =>
    if c.isDigit then
      let r := takeDigits rest
      (c :: r.1, r.2)
    else ([], c :: rest)

/-- Natural number denoted by a digit run. -/
def digitsToNat (ds : List Char) : Nat :=
  ds.foldl (fun n c => n * 10 + (c.toNat - 48)) 0

/-- Modelled from the spec: a JSON number literal, as an exact rational. -/
def parseNumber (cs : List Char) : Option (Rat × List Char) :=
  let (neg, cs1) :=
    match cs with
    | '-' :: rest => (true, rest)
    | _ => (false, cs)
  let (ip, cs2) := takeDigits cs1
  if ip.isEmpty then none
  else
    let (fp, cs3) :=
      match cs2 with
      | '.' :: rest => takeDigits rest
      | _ => ([], cs2)
    if cs2 ≠ cs3 ∧ fp.isEmpty then none
    else
      let expPart : Option (Int × List Char) :=
        match cs3 with
        | e :: rest =>
          if e = 'e' ∨ e = 'E' then
            let (esign, rest2) :=
              match rest with
              | '+' :: r => ((1 : Int), r)
              | '-' :: r => ((-1 : Int), r)
              | _ => ((1 : Int), rest)
            let (ed, rest3) := takeDigits rest2
            if ed.isEmpty then none else some (esign * digitsToNat ed, rest3)
          else some (0, cs3)
        | [] => some (0, cs3)
      match expPart with
      | none => none
      | some (e, cs4) =>
        let base : Rat :=
          (digitsToNat ip : Rat) + (digitsToNat fp : Rat) / ((10 : Rat) ^ fp.length)
        let scaled : Rat :=
          if 0 ≤ e then base * (10 : Rat) ^ e.toNat else base / (10 : Rat) ^ (-e).toNat
        some (if neg then -scaled else scaled, cs4)

mutual

/-- Modelled from the spec: recursive-descent JSON value parser (the
worker delegates parsing to the external streaming library; this is the
standard JSON grammar it implements), fuelled for termination. -/
def parseValue : Nat → List Char → Option (JValue × List Char)
  | 0, _ => none
  | fuel + 1, cs =>
    match skipWs cs with
    | [] => none
    | c :: rest =>
      if c = 'n' then
        match rest with
        | 'u' :: 'l' :: 'l' :: rest2 => some (.null, rest2)
        | _ => none
      else if c = 't' then
        match rest with
        | 'r' :: 'u' :: 'e' :: rest2 => some (.bool true, rest2)
        | _ => none
      else if c = 'f' then
        match rest with
        | 'a' :: 'l' :: 's' :: 'e' :: rest2 => some (.bool false, rest2)
        | _ => none
      else if c = '"' then
        (parseStringBody (rest.length + 1) rest).map (fun r => (.str (String.mk r.1), r.2))
      else if c = '[' then
        match skipWs rest with
        | ']' :: rest2 => some (.arr [], rest2)
        | _ =>
          (parseElems fuel rest).map (fun r => (.arr r.1, r.2))
      else if c = '{' then
        match skipWs rest with
        | '}' :: rest2 => some (.obj [], rest2)
        | _ =>
          (parseFields fuel rest).map (fun r => (.obj r.1, r.2))
      else
        parseNumber (c :: rest) |>.map (fun r => (.num r.1, r.2))

/-- Comma-separated values up to the closing `]`. -/
def parseElems : Nat → List Char → Option (List JValue × List Char)
  | 0, _ => none
  | fuel + 1, cs =>
    match parseValue fuel cs with
    | none => none
    | some (v, rest) =>
      match skipWs rest with
      | ',' :: rest2 =>
        (parseElems fuel rest2).map (fun r => (v :: r.1, r.2))
      | ']' :: rest2 => some ([v], rest2)
      | _ => none

/-- Comma-separated `"key": value` pairs up to the closing brace. -/
def parseFields : Nat → List Char → Option (List (String × JValue) × List Char)
  | 0, _ => none
  | fuel + 1, cs =>
    match skipWs cs with
    | '"' :: rest =>
      match parseStringBody (rest.length + 1) rest with
      | none => none
      | some (key, rest2) =>
        match skipWs rest2 with
        | ':' :: rest3 =>
          match parseValue fuel rest3 with
          | none => none
          | some (v, rest4) =>
            match skipWs rest4 with
            | ',' :: rest5 =>
              (parseFields fuel rest5).map (fun r => ((String.mk key, v) :: r.1, r.2))
            | '}' :: rest5 => some ([(String.mk key, v)], rest5)
            | _ => none
        | _ => none
    | _ => none

end

/-- `JSON.parse` on one emitted object text: the value must consume the
whole text up to trailing whitespace. -/
def parseJson (cs : List Char) : Option JValue :=
  match parseValue (2 * cs.length + 2) cs with
  | some (v, rest) => if (skipWs rest).isEmpty then some v else none
  | none => none

/-- The whole pipeline on a chunked character stream: scan out the
top-level object texts, parse each (a parse failure skips the object),
and run the worker over the parsed objects, finalizing at end of stream. -/
def runFromChunks (eng : Nat → Bool) (tn : String) (sample batch : Nat)
    (chunks : List (List Char)) : WState :=
  runStream eng (initState tn sample batch) ((scanChunks chunks).emitted.filterMap parseJson)

/-- A message from the host to the worker (`self.onmessage` cases). -/
inductive Msg where
  | init (tn : String) (sample batch : Nat)
  | chunk (text : List Char)
  | endOfStream
  | export
deriving DecidableEq, Repr

/-- An output the worker posts back to the host (the messages the claims
mention; logs and progress are omitted). -/
inductive Out where
  | ready
  | exported (db : Db)
  | error (msg : String)
deriving DecidableEq, Repr

/-- `self.onmessage`: dispatch one message against the session, which is
`none` before initialization.  A chunk before initialization is dropped
with a warning; `export` before initialization throws inside
`exportDatabase` and is reported as an error; after initialization
`export` posts the engine's current snapshot unconditionally. -/
def handleMsg (eng : Nat → Bool) :
    Option (ScanState × WState) → Msg → Option (ScanState × WState) × List Out
  | _, .init tn s b => (some (scanInit, initState tn s b), [.ready])
  | none, .chunk _ => (none, [])
  | some (sc, w), .chunk text =>
      let sc2 := scanFeed sc text
      let newTexts := sc2.emitted.drop sc.emitted.length
      (some (sc2, runObjects eng w (newTexts.filterMap parseJson)), [])
  | none, .endOfStream => (none, [])
  | some (sc, w), .endOfStream => (some (sc, finalizeProcessing eng w), [])
  | none, .export => (none, [.error "Failed to export database"])
  | some (sc, w), .export => (some (sc, w), [.exported w.db])

/-- A whole host/worker exchange: fold the dispatcher over the messages,
collecting the posted outputs. -/
def runSession (eng : Nat → Bool) (msgs : List Msg) :
    Option (ScanState × WState) × List Out :=
  msgs.foldl
    (fun acc m =>
      let r := handleMsg eng acc.1 m
      (r.1, acc.2 ++ r.2))
    (none, [])

/-- An engine oracle under which no statement ever fails. -/
def engOk : Nat → Bool := fun _ => false

/-- An engine oracle under which exactly the statement with global index
`k` fails. -/
def engAt (k : Nat) : Nat → Bool := fun i => i == k

/-- The end-to-end example input `[{"id":1,"name":"a"},{"id":2,"name":"b"}]`,
as the two objects the streaming parser delivers. -/
def e2eObjs : List JValue :=
  [.obj [("id", .num 1), ("name", .str "a")], .obj [("id", .num 2), ("name", .str "b")]]

/-- A one-key object `{"a": n}`. -/
def aObj (n : Nat) : JValue := .obj [("a", .num n)]

/-- A state with a materialized one-column table and one buffered row:
the result of streaming `{"a":1}`, `{"a":2}` with sampleSize 2 and
batchSize 2 (the second object materializes the table and is buffered). -/
def stBuf1 : WState := runObjects engOk (initState "data" 2 2) [aObj 1, aObj 2]

/-- A state whose pending-column queue contains two columns that sanitize
to the same SQL name (`"a.b"` and `"a b"` both become `a_b`), so that its
next migration flush must fail: the result of streaming `{"a":1}`,
`{"a":2}`, `{"a.b":1,"a b":2}` with sampleSize 2 and batchSize 1000. -/
def stMigFail : WState :=
  runObjects engOk (initState "data" 2 1000)
    [aObj 1, aObj 2, .obj [("a.b", .num 1), ("a b", .num 2)]]

/-- The schema builder state after observing a list of objects. -/
def buildPrefix (objs : List JValue) : List Column :=
  objs.foldl (fun b o => schemaBuilderAdd b (flattenObject o)) []

/-- The names of the authoritative schema's columns (empty before
materialization). -/
def schemaNames (st : WState) : List String :=
  (st.schema.getD []).map Column.name

/-- The names in the pending-column queue. -/
def pendingNames (st : WState) : List String :=
  st.pendingColumns.map Column.name

/-- All column names the worker believes exist or has queued: the
authoritative schema followed by the pending queue. -/
def knownNames (st : WState) : List String :=
  schemaNames st ++ pendingNames st

/-- The queue discipline the worker maintains: the pending queue never
holds two columns of the same name, every queued name is already in the
membership set, and nothing is queued before materialization. -/
def queueInv (st : WState) : Prop :=
  (pendingNames st).Nodup ∧
  (∀ nm ∈ pendingNames st, nm ∈ st.existingColumnsSet) ∧
  (st.schema = none → st.pendingColumns = [])

/-- Schema uniqueness in error-free runs: as long as no error has been
reported, the schema together with the pending queue is unique by name
and covered by the membership set. -/
def uniqueInv (st : WState) : Prop :=
  st.errors = [] →
    (knownNames st).Nodup ∧ ∀ nm ∈ knownNames st, nm ∈ st.existingColumnsSet

/-- The worker's schema bookkeeping invariant: queue discipline, a
duplicate-free builder, and error-free schema uniqueness. -/
def coreInv (st : WState) : Prop :=
  queueInv st ∧ (st.builder.map Column.name).Nodup ∧ uniqueInv st

/-- C1: on the end-to-end example `[{"id":1,"name":"a"},{"id":2,"name":"b"}]`
with sampleSize 100 and batchSize 1000, the run creates exactly one table
named `data` with columns `id INTEGER, name TEXT` and issues no ALTER
TABLE — but, contrary to the claim, the table holds 0 rows and the
completion report says totalRows = 0: both objects arrive while the
schema is still being sampled, and `processObject` only batches a row
when the schema already exists, so sampled objects are never inserted. -/
theorem c1_short_stream_drops_rows :
    (runStream engOk (initState "data" 100 1000) e2eObjs).db.tname = "data" ∧
    (runStream engOk (initState "data" 100 1000) e2eObjs).db.created = true ∧
    (runStream engOk (initState "data" 100 1000) e2eObjs).schema =
      some [⟨"id", "INTEGER"⟩, ⟨"name", "TEXT"⟩] ∧
    (runStream engOk (initState "data" 100 1000) e2eObjs).alterCount = 0 ∧
    (runStream engOk (initState "data" 100 1000) e2eObjs).db.rows = [] ∧
    (runStream engOk (initState "data" 100 1000) e2eObjs).completed = some 0 := by
  decide

/-- C8: flattening joins nested object keys with underscores and never
recurses into arrays — `{"a":{"b":1,"c":{"d":2}}}` flattens to
`{a_b: 1, a_c_d: 2}`, `{"tags":["x","y"]}` flattens to the exact JSON
text `{"tags": "[\"x\",\"y\"]"}`, and in general a nested-object field
recurses with the underscore-joined prefix while an array field is
stored as its JSON serialization. -/
theorem c8_flatten_objects_and_arrays :
    flattenObject (.obj [("a", .obj [("b", .num 1), ("c", .obj [("d", .num 2)])])]) =
      [("a_b", .num 1), ("a_c_d", .num 2)] ∧
    flattenObject (.obj [("tags", .arr [.str "x", .str "y"])]) =
      [("tags", .str "[\"x\",\"y\"]")] ∧
    (∀ (pre k : String) (fs : List (String × JValue)) (acc : Row),
      flattenOne pre k (.obj fs) acc = flattenInto (joinKey pre k) fs acc) ∧
    (∀ (pre k : String) (xs : List JValue) (acc : Row),
      flattenOne pre k (.arr xs) acc =
        setKey acc (joinKey pre k) (.str (jsonStringify (.arr xs)))) :=
  ⟨by decide, by decide, fun _ _ _ _ => rfl, fun _ _ _ _ => rfl⟩

/-- C4 counterexample: observing `null` and then the integer `1` for the
same key yields TEXT, not INTEGER — `detectType(null)` is TEXT and the
very first observation (null included) sets the column type, so the
claim's "null observations defer, leaving the type unknown" fails. -/
theorem c4_null_then_int_yields_text :
    lookupType (schemaBuilderAdd (schemaBuilderAdd [] [("k", .null)]) [("k", .num 1)]) "k" =
      some "TEXT" ∧ some "TEXT" ≠ some "INTEGER" := by
  decide

/-- C3 counterexample: with sampleSize 2, streaming `{"a":1}` then
`{"b":2}` materializes the schema at the second object but infers it
from the first object only — the finalized schema is `[a INTEGER]` and
knows nothing of `b`, so object number sampleSize is *not* part of the
sample (the code samples while `objectCount < sampleSize` after the
increment, i.e. the first sampleSize − 1 objects). -/
theorem c3_sample_excludes_last_object :
    (runObjects engOk (initState "data" 2 1000) [aObj 1, .obj [("b", .num 2)]]).schema =
      some [⟨"a", "INTEGER"⟩] ∧
    lookupType ((runObjects engOk (initState "data" 2 1000)
      [aObj 1, .obj [("b", .num 2)]]).schema.getD []) "b" = none := by
  decide

/-- C9 counterexample: the Schema does not stay unique by name across a
run with a failed migration flush.  With sampleSize 2 and batchSize 1,
after `{"a":1}`, `{"a":2}` materialize the table, the object
`{"a.b":1, "a b":2, "x":3}` queues three new columns of which the first
two sanitize to the same SQL name `a_b`: each flush attempt executes the
first ALTER, pushes `a.b` onto the live schema, then fails on the second
ALTER and rolls the engine back — but the pushed element stays and the
queue is not cleared, so every retry appends `a.b` again. -/
theorem c9_failed_migration_duplicates_schema :
    ((runStream engOk (initState "data" 2 1)
        [aObj 1, aObj 2, .obj [("a.b", .num 1), ("a b", .num 2), ("x", .num 3)],
         aObj 4]).schema.getD []).map Column.name = ["a", "a.b", "a.b", "a.b"] ∧
    ¬ (((runStream engOk (initState "data" 2 1)
        [aObj 1, aObj 2, .obj [("a.b", .num 1), ("a b", .num 2), ("x", .num 3)],
         aObj 4]).schema.getD []).map Column.name).Nodup := by
  decide

/-- C7 counterexample: a failed flush is neither run-terminating nor are
its rows lost.  With sampleSize 2, batchSize 1 and an engine that fails
exactly the first INSERT statement, the flush of `{"a":2}` fails and is
reported — but the worker keeps processing, the buffer is not cleared,
and the next flush re-runs the same row successfully: the final table
contains the row from the failed attempt, 3 rows total are reported, and
exactly one error was posted. -/
theorem c7_failed_flush_rows_retried :
    (runStream (engAt 0) (initState "data" 2 1) [aObj 1, aObj 2, aObj 3, aObj 4]).errors =
      ["Failed to insert batch: constraint failed"] ∧
    (runStream (engAt 0) (initState "data" 2 1) [aObj 1, aObj 2, aObj 3, aObj 4]).db.rows =
      [[.num 2], [.num 3], [.num 4]] ∧
    (runStream (engAt 0) (initState "data" 2 1) [aObj 1, aObj 2, aObj 3, aObj 4]).rowsProcessed = 3 ∧
    (runStream (engAt 0) (initState "data" 2 1) [aObj 1, aObj 2, aObj 3, aObj 4]).completed = some 3 := by
  decide

/-- C2 counterexample: a flush's migrations and inserts are not one
all-or-nothing unit.  With sampleSize 2, batchSize 1 and an engine that
fails exactly the second INSERT statement, the object `{"a":3,"b":4}`
queues column `b`; its flush runs the ALTER in one transaction (which
commits) and the INSERT in a second transaction (which fails and rolls
back): afterwards the new column `b` is present in the table while none
of the flush's rows are, and the batch error was reported. -/
theorem c2_migration_survives_insert_failure :
    (runObjects (engAt 1) (initState "data" 2 1)
        [aObj 1, aObj 2, .obj [("a", .num 3), ("b", .num 4)]]).db.cols = ["a", "b"] ∧
    (runObjects (engAt 1) (initState "data" 2 1)
        [aObj 1, aObj 2, .obj [("a", .num 3), ("b", .num 4)]]).db.rows = [[.num 2, .null]] ∧
    (runObjects (engAt 1) (initState "data" 2 1)
        [aObj 1, aObj 2, .obj [("a", .num 3), ("b", .num 4)]]).errors =
      ["Failed to insert batch: constraint failed"] ∧
    (runObjects (engAt 1) (initState "data" 2 1)
        [aObj 1, aObj 2, .obj [("a", .num 3), ("b", .num 4)]]).currentBatch ≠ [] := by
  decide

/-- If some statement of the batch fails under the oracle, the insert
loop returns an error. -/
lemma insertLoop_error (eng : Nat → Bool) :
    ∀ (vals : List (List Scalar)) (start : Nat),
      (∃ i, i < vals.length ∧ eng (start + i) = true) →
      ∃ e, (insertLoop eng start vals).1 = .error e := by
  intro vals
  induction vals with
  | nil =>
    intro start h
    obtain ⟨i, hi, _⟩ := h
    simp at hi
  | cons v rest ih =>
    intro start h
    by_cases hs : eng start = true
    · exact ⟨"constraint failed", by simp [insertLoop, hs]⟩
    · obtain ⟨i, hi, he⟩ := h
      match i with
      | 0 => exact absurd he hs
      | i + 1 =>
        obtain ⟨e, he2⟩ := ih (start + 1)
          ⟨i, by simpa using Nat.lt_of_succ_lt_succ hi, by
            have : start + 1 + i = start + (i + 1) := by omega
            rw [this]; exact he⟩
        exact ⟨e, by simp [insertLoop, hs, he2, Except.map]⟩
/-- On a failing flush, `insertBatch` rolls the transaction back: the
engine state, the buffer and the processed-row counter are unchanged. -/
lemma insertBatch_failure (eng : Nat → Bool) (st : WState)
    (h : ∃ i, i < st.currentBatch.length ∧ eng (st.stmtCount + i) = true) :
    (insertBatch eng st).db = st.db ∧
    (insertBatch eng st).currentBatch = st.currentBatch ∧
    (insertBatch eng st).rowsProcessed = st.rowsProcessed := by
  have hne : st.currentBatch.isEmpty = false := by
    obtain ⟨i, hi, _⟩ := h
    cases hb : st.currentBatch with
    | nil => rw [hb] at hi; simp at hi
    | cons a l => simp
  unfold insertBatch
  rw [hne]
  simp only [Bool.false_eq_true, if_false]
  split
  · exact ⟨rfl, rfl, rfl⟩
  · split
    · exact ⟨rfl, rfl, rfl⟩
    · rename_i sch hsch hprep
      obtain ⟨e, he⟩ := insertLoop_error eng (st.currentBatch.map (rowValues sch)) st.stmtCount
        (by simpa using h)
      split
      · rename_i staged hok
        rw [he] at hok
        exact absurd hok (by simp)
      · exact ⟨rfl, rfl, rfl⟩

/-- On a failing flush of a materialized table, the batch error is
reported: exactly one error message is appended. -/
lemma insertBatch_failure_reports (eng : Nat → Bool) (st : WState) (sch : List Column)
    (hsch : st.schema = some sch)
    (h : ∃ i, i < st.currentBatch.length ∧ eng (st.stmtCount + i) = true) :
    ∃ e, (insertBatch eng st).errors = st.errors ++ [e] := by
  have hne : st.currentBatch.isEmpty = false := by
    obtain ⟨i, hi, _⟩ := h
    cases hb : st.currentBatch with
    | nil => rw [hb] at hi; simp at hi
    | cons a l => simp
  unfold insertBatch
  rw [hne, hsch]
  simp only [Bool.false_eq_true, if_false]
  split
  · exact ⟨"Failed to insert batch: no such column", rfl⟩
  · obtain ⟨e, he⟩ := insertLoop_error eng (st.currentBatch.map (rowValues sch)) st.stmtCount
      (by simpa using h)
    split
    · rename_i staged hok
      rw [he] at hok
      exact absurd hok (by simp)
    · rename_i e2 herr
      exact ⟨"Failed to insert batch: " ++ e2, rfl⟩

/-- C6: batch insertion is all-or-nothing — if any one statement of a
flush fails, the transaction rolls back and none of that flush's rows
are present in the table (the engine's rows, and indeed its whole
state, are exactly what they were before the flush). -/
theorem c6_insert_batch_atomic (eng : Nat → Bool) (st : WState)
    (h : ∃ i, i < st.currentBatch.length ∧ eng (st.stmtCount + i) = true) :
    (insertBatch eng st).db.rows = st.db.rows ∧ (insertBatch eng st).db = st.db := by
  have hf := insertBatch_failure eng st h
  exact ⟨by rw [hf.1], hf.1⟩

/-- C6 witness: a concrete flush of one buffered row whose only INSERT
statement fails leaves the committed rows untouched. -/
theorem c6_insert_batch_atomic_witness :
    (insertBatch (engAt 0) stBuf1).db.rows = stBuf1.db.rows ∧
    (insertBatch (engAt 0) stBuf1).db = stBuf1.db :=
  c6_insert_batch_atomic (engAt 0) stBuf1 ⟨0, by decide, by decide⟩

/-- C2 (amended): a flush's migrations and inserts run as two separate
transactions, each individually atomic — a failing ALTER loop leaves the
engine unchanged, and a failing INSERT loop leaves the committed rows
unchanged — but a failed insert does not undo the migrations committed
by the same flush moments earlier (see the counterexample theorem). -/
theorem c2_separate_transactions_each_atomic :
    (∀ st : WState,
      (∃ e, (applyColsLoop st.db st.pendingColumns).outcome = .error e) →
      (applyPendingColumns st).db = st.db) ∧
    (∀ (eng : Nat → Bool) (st : WState),
      (∃ i, i < st.currentBatch.length ∧ eng (st.stmtCount + i) = true) →
      (insertBatch eng st).db.rows = st.db.rows) := by
  constructor
  · intro st h
    obtain ⟨e, he⟩ := h
    unfold applyPendingColumns
    split
    · rfl
    · split
      · rfl
      · rename_i sch hsch
        simp only [he]
  · intro eng st h
    exact (insertBatch_failure eng st h).1 ▸ rfl

/-- C2 witness: the two atomicity halves at concrete states — a pending
queue with a sanitization collision whose migration flush fails, and a
buffered row whose insert fails. -/
theorem c2_separate_transactions_witness :
    (applyPendingColumns stMigFail).db = stMigFail.db ∧
    (insertBatch (engAt 0) stBuf1).db.rows = stBuf1.db.rows :=
  ⟨c2_separate_transactions_each_atomic.1 stMigFail
      ⟨"duplicate column name: a_b", by rfl⟩,
   c2_separate_transactions_each_atomic.2 (engAt 0) stBuf1 ⟨0, by decide, by decide⟩⟩

/-- C7 (amended): a failing flush is rolled back and reported — exactly
one batch error is appended — but the run is not terminated and the
buffered rows are not lost: the buffer is left intact (and the
processed-row counter unchanged), so those same rows are automatically
included in the next flush attempt. -/
theorem c7_flush_failure_reported_and_buffer_retained (eng : Nat → Bool) (st : WState)
    (sch : List Column) (hsch : st.schema = some sch)
    (h : ∃ i, i < st.currentBatch.length ∧ eng (st.stmtCount + i) = true) :
    (insertBatch eng st).currentBatch = st.currentBatch ∧
    (insertBatch eng st).rowsProcessed = st.rowsProcessed ∧
    (insertBatch eng st).db.rows = st.db.rows ∧
    ∃ e, (insertBatch eng st).errors = st.errors ++ [e] := by
  have hf := insertBatch_failure eng st h
  exact ⟨hf.2.1, hf.2.2, by rw [hf.1], insertBatch_failure_reports eng st sch hsch h⟩

/-- C7 witness: the retained-buffer behavior at a concrete failing flush
of one buffered row. -/
theorem c7_flush_failure_witness :
    (insertBatch (engAt 0) stBuf1).currentBatch = stBuf1.currentBatch ∧
    (insertBatch (engAt 0) stBuf1).rowsProcessed = stBuf1.rowsProcessed ∧
    (insertBatch (engAt 0) stBuf1).db.rows = stBuf1.db.rows ∧
    ∃ e, (insertBatch (engAt 0) stBuf1).errors = stBuf1.errors ++ [e] :=
  c7_flush_failure_reported_and_buffer_retained (engAt 0) stBuf1
    [⟨"a", "INTEGER"⟩] (by decide) ⟨0, by decide, by decide⟩

/-- Updating the type of the column named `k` to TEXT leaves `find?` by
that name pointing at the rewritten column. -/
lemma find?_setText (k : String) :
    ∀ b : List Column, (b.find? (fun c => c.name = k)).isSome →
      ((b.map (fun c2 => if c2.name = k then (⟨k, "TEXT"⟩ : Column) else c2)).find?
        (fun c => c.name = k)) = some ⟨k, "TEXT"⟩ := by
  intro b
  induction b with
  | nil => simp
  | cons c rest ih =>
    intro h
    by_cases hc : c.name = k
    · simp [List.find?_cons, hc]
    · rw [List.find?_cons_of_neg _ (by simp [hc])] at h
      simpa [List.find?_cons, hc] using ih h

/-- C4 (amended): the builder's merge rule, per observation of value `v`
for key `k` — an unknown key records `detectType v` (so a first `null`
observation records TEXT rather than deferring); a known key keeps its
type when the observation is null or detects the same type, and is
permanently rewritten to TEXT when a non-null observation detects a
different type.  In particular `1` then `1.5` yields TEXT, and `null`
then `1` yields TEXT (not INTEGER). -/
theorem c4_merge_rule (b : List Column) (k : String) (v : Scalar) :
    lookupType (schemaBuilderAdd b [(k, v)]) k =
      some (match lookupType b k with
            | none => detectType v
            | some t => if detectType v ≠ t ∧ v ≠ Scalar.null then "TEXT" else t) := by
  have hadd : schemaBuilderAdd b [(k, v)] = sbObserve b k v := rfl
  rw [hadd]
  cases hf : b.find? (fun c => c.name = k) with
  | none =>
    have hlook : lookupType b k = none := by simp [lookupType, hf]
    rw [hlook]
    simp [sbObserve, hf, lookupType, List.find?_append]
  | some c =>
    have hlook : lookupType b k = some c.type := by simp [lookupType, hf]
    rw [hlook]
    dsimp only
    by_cases h1 : c.type = detectType v
    · have hcond : ¬ (detectType v ≠ c.type ∧ v ≠ Scalar.null) := by
        intro hh
        exact hh.1 h1.symm
      rw [if_neg hcond]
      simp [sbObserve, hf, h1, lookupType]
    · by_cases h2 : v = Scalar.null
      · have hcond : ¬ (detectType v ≠ c.type ∧ v ≠ Scalar.null) := by
          intro hh
          exact hh.2 h2
        rw [if_neg hcond]
        simp [sbObserve, hf, h2, lookupType]
      · have hcond : detectType v ≠ c.type ∧ v ≠ Scalar.null :=
          ⟨fun hh => h1 hh.symm, h2⟩
        rw [if_pos hcond]
        have hsome : (b.find? (fun c => c.name = k)).isSome := by simp [hf]
        simp [sbObserve, hf, h1, h2, lookupType, find?_setText k b hsome]

/-- Feeding chunks one after another is the same as feeding their
concatenation: the scanner's state is carried across `feed` calls. -/
lemma scanFeed_join : ∀ (chunks : List (List Char)) (st : ScanState),
    chunks.foldl scanFeed st = scanFeed st chunks.flatten := by
  intro chunks
  induction chunks with
  | nil => intro st; rfl
  | cons c cs ih =>
    intro st
    show cs.foldl scanFeed (scanFeed st c) = scanFeed st ((c :: cs).flatten)
    rw [ih (scanFeed st c)]
    simp [scanFeed, List.foldl_append]

/-- C5: chunk-boundary invariance — two chunkings of the same character
stream make the scanner emit identical object-text sequences, and the
whole pipeline (parse each text, run the worker, finalize) produces
identical final states, in particular identical row counts and schema. -/
theorem c5_chunk_boundary_invariance (eng : Nat → Bool) (tn : String) (sample batch : Nat)
    (chunks1 chunks2 : List (List Char)) (h : chunks1.flatten = chunks2.flatten) :
    scanChunks chunks1 = scanChunks chunks2 ∧
    runFromChunks eng tn sample batch chunks1 = runFromChunks eng tn sample batch chunks2 ∧
    (runFromChunks eng tn sample batch chunks1).rowsProcessed =
      (runFromChunks eng tn sample batch chunks2).rowsProcessed ∧
    (runFromChunks eng tn sample batch chunks1).schema =
      (runFromChunks eng tn sample batch chunks2).schema := by
  have hs : scanChunks chunks1 = scanChunks chunks2 := by
    unfold scanChunks
    rw [scanFeed_join, scanFeed_join, h]
  have hr : runFromChunks eng tn sample batch chunks1 =
      runFromChunks eng tn sample batch chunks2 := by
    unfold runFromChunks
    rw [hs]
  exact ⟨hs, hr, by rw [hr], by rw [hr]⟩

/-- C5 witness: splitting `[{"a":1},{"b":2}]` into one-character chunks
versus one whole chunk yields the same scanner output and the same final
pipeline state. -/
theorem c5_chunk_boundary_invariance_witness :
    scanChunks (("[\x7b\"a\":1\x7d,\x7b\"b\":2\x7d]".toList).map (fun c => [c])) =
      scanChunks ["[\x7b\"a\":1\x7d,\x7b\"b\":2\x7d]".toList] ∧
    runFromChunks engOk "data" 100 1000 (("[\x7b\"a\":1\x7d,\x7b\"b\":2\x7d]".toList).map (fun c => [c])) =
      runFromChunks engOk "data" 100 1000 ["[\x7b\"a\":1\x7d,\x7b\"b\":2\x7d]".toList] ∧
    (runFromChunks engOk "data" 100 1000
        (("[\x7b\"a\":1\x7d,\x7b\"b\":2\x7d]".toList).map (fun c => [c]))).rowsProcessed =
      (runFromChunks engOk "data" 100 1000 ["[\x7b\"a\":1\x7d,\x7b\"b\":2\x7d]".toList]).rowsProcessed ∧
    (runFromChunks engOk "data" 100 1000
        (("[\x7b\"a\":1\x7d,\x7b\"b\":2\x7d]".toList).map (fun c => [c]))).schema =
      (runFromChunks engOk "data" 100 1000 ["[\x7b\"a\":1\x7d,\x7b\"b\":2\x7d]".toList]).schema :=
  c5_chunk_boundary_invariance engOk "data" 100 1000 _ _ (by decide)

/-- The new-column scan only ever touches the pending queue and the
membership set. -/
lemma caFold_shape : ∀ (row : Row) (st : WState), ∃ p e,
    row.foldl caStep st = { st with pendingColumns := p, existingColumnsSet := e } := by
  intro row
  induction row with
  | nil => intro st; exact ⟨st.pendingColumns, st.existingColumnsSet, rfl⟩
  | cons kv rest ih =>
    intro st
    show ∃ p e, rest.foldl caStep (caStep st kv) = _
    by_cases hc : st.existingColumnsSet.contains kv.1
    · have hstep : caStep st kv = st := by unfold caStep; rw [if_pos hc]
      rw [hstep]
      exact ih st
    · have hstep : caStep st kv =
          { st with pendingColumns := st.pendingColumns ++ [⟨kv.1, detectType kv.2⟩],
                    existingColumnsSet := st.existingColumnsSet ++ [kv.1] } := by
        unfold caStep; rw [if_neg hc]
      rw [hstep]
      obtain ⟨p, e, hpe⟩ := ih _
      exact ⟨p, e, hpe⟩

/-- `checkAndAddNewColumns` only ever touches the pending queue and the
membership set. -/
lemma checkAndAdd_shape (st : WState) (row : Row) : ∃ p e,
    checkAndAddNewColumns st row = { st with pendingColumns := p, existingColumnsSet := e } := by
  unfold checkAndAddNewColumns
  by_cases h : st.schema.isNone
  · rw [if_pos h]
    exact ⟨st.pendingColumns, st.existingColumnsSet, rfl⟩
  · rw [if_neg h]
    exact caFold_shape row st

/-- `applyPendingColumns` leaves the configuration, counters, builder,
buffer, membership set and materialization status unchanged. -/
lemma applyPendingColumns_fields (st : WState) :
    (applyPendingColumns st).sampleSize = st.sampleSize ∧
    (applyPendingColumns st).batchSize = st.batchSize ∧
    (applyPendingColumns st).objectCount = st.objectCount ∧
    (applyPendingColumns st).builder = st.builder ∧
    (applyPendingColumns st).currentBatch = st.currentBatch ∧
    (applyPendingColumns st).rowsProcessed = st.rowsProcessed ∧
    (applyPendingColumns st).stmtCount = st.stmtCount ∧
    (applyPendingColumns st).completed = st.completed ∧
    (applyPendingColumns st).schema.isSome = st.schema.isSome ∧
    (applyPendingColumns st).existingColumnsSet = st.existingColumnsSet := by
  unfold applyPendingColumns
  split
  · exact ⟨rfl, rfl, rfl, rfl, rfl, rfl, rfl, rfl, rfl, rfl⟩
  · split
    · exact ⟨rfl, rfl, rfl, rfl, rfl, rfl, rfl, rfl, rfl, rfl⟩
    · rename_i sch hsch
      dsimp only
      cases ho : (applyColsLoop st.db st.pendingColumns).outcome with
      | ok db2 => simp [ho, hsch]
      | error e => simp [ho, hsch]

/-- `insertBatch` leaves the configuration, object counter, builder,
schema, pending queue and membership set unchanged. -/
lemma insertBatch_fields (eng : Nat → Bool) (st : WState) :
    (insertBatch eng st).sampleSize = st.sampleSize ∧
    (insertBatch eng st).batchSize = st.batchSize ∧
    (insertBatch eng st).objectCount = st.objectCount ∧
    (insertBatch eng st).builder = st.builder ∧
    (insertBatch eng st).schema = st.schema ∧
    (insertBatch eng st).pendingColumns = st.pendingColumns ∧
    (insertBatch eng st).existingColumnsSet = st.existingColumnsSet ∧
    (insertBatch eng st).completed = st.completed := by
  unfold insertBatch
  split
  · exact ⟨rfl, rfl, rfl, rfl, rfl, rfl, rfl, rfl⟩
  · split
    · exact ⟨rfl, rfl, rfl, rfl, rfl, rfl, rfl, rfl⟩
    · split
      · exact ⟨rfl, rfl, rfl, rfl, rfl, rfl, rfl, rfl⟩
      · rename_i sch hsch hprep
        dsimp only
        cases ho : (insertLoop eng st.stmtCount (st.currentBatch.map (rowValues sch))).1 with
        | ok staged => simp [ho]
        | error e => simp [ho]

/-- `createTable` sets the schema from the builder in every branch, and
leaves the configuration, counters, builder, buffer and pending queue
unchanged. -/
lemma createTable_fields (st : WState) :
    (createTable st).sampleSize = st.sampleSize ∧
    (createTable st).batchSize = st.batchSize ∧
    (createTable st).objectCount = st.objectCount ∧
    (createTable st).builder = st.builder ∧
    (createTable st).currentBatch = st.currentBatch ∧
    (createTable st).rowsProcessed = st.rowsProcessed ∧
    (createTable st).stmtCount = st.stmtCount ∧
    (createTable st).completed = st.completed ∧
    (createTable st).pendingColumns = st.pendingColumns ∧
    (createTable st).schema = some st.builder := by
  unfold createTable
  dsimp only
  by_cases hb : st.builder.isEmpty = true
  · rw [if_pos hb]
    exact ⟨rfl, rfl, rfl, rfl, rfl, rfl, rfl, rfl, rfl, rfl⟩
  · rw [if_neg hb]
    cases hd : dbCreateTable st.db st.tableName (st.builder.map (fun c => sanitize c.name)) with
    | ok db2 => simp [hd]
    | error e => simp [hd]

/-- A full flush (pending migrations, then inserts) leaves the
configuration, object counter, builder and materialization status
unchanged. -/
lemma flush_fields (eng : Nat → Bool) (st : WState) :
    (insertBatch eng (applyPendingColumns st)).sampleSize = st.sampleSize ∧
    (insertBatch eng (applyPendingColumns st)).objectCount = st.objectCount ∧
    (insertBatch eng (applyPendingColumns st)).builder = st.builder ∧
    (insertBatch eng (applyPendingColumns st)).schema.isSome = st.schema.isSome := by
  obtain ⟨ha1, ha2, ha3, ha4, ha5, ha6, ha7, ha8, ha9, ha10⟩ := applyPendingColumns_fields st
  obtain ⟨hi1, hi2, hi3, hi4, hi5, hi6, hi7, hi8⟩ := insertBatch_fields eng (applyPendingColumns st)
  exact ⟨hi1.trans ha1, hi3.trans ha3, hi4.trans ha4, by rw [hi5]; exact ha9⟩

/-- The batching phase leaves the configuration, object counter, builder
and materialization status unchanged. -/
lemma batchPhase_fields (eng : Nat → Bool) (st : WState) (flat : Row) :
    (batchPhase eng st flat).sampleSize = st.sampleSize ∧
    (batchPhase eng st flat).objectCount = st.objectCount ∧
    (batchPhase eng st flat).builder = st.builder ∧
    (batchPhase eng st flat).schema.isSome = st.schema.isSome := by
  unfold batchPhase
  obtain ⟨p, e, hce⟩ := checkAndAdd_shape st flat
  dsimp only
  rw [hce]
  split
  · have hf := flush_fields eng
      { st with pendingColumns := p, existingColumnsSet := e,
                currentBatch := st.currentBatch ++ [flat] }
    simpa using hf
  · exact ⟨rfl, rfl, rfl, rfl⟩

/-- During sampling (schema absent, next count still below the
threshold) an object only bumps the counter and feeds the builder. -/
lemma processObject_eq_pre (eng : Nat → Bool) (g : WState) (x : JValue)
    (hn : g.schema = none) (hlt : g.objectCount + 1 < g.sampleSize) :
    processObject eng g x =
      { g with objectCount := g.objectCount + 1,
               builder := schemaBuilderAdd g.builder (flattenObject x) } := by
  unfold processObject
  dsimp only
  have hc1 : g.schema.isNone = true ∧ g.objectCount + 1 < g.sampleSize :=
    ⟨by rw [hn]; rfl, hlt⟩
  rw [if_pos hc1]
  dsimp only
  have hc2 : ¬ (g.schema.isNone = true ∧ g.sampleSize ≤ g.objectCount + 1) :=
    fun h => absurd h.2 (by omega)
  rw [if_neg hc2]
  dsimp only
  have hc3 : ¬ (g.schema.isSome = true) := by rw [hn]; simp
  rw [if_neg hc3]

/-- At the sampling threshold (schema absent, next count reaches the
sample size) an object bumps the counter, materializes the table and
enters the batching phase. -/
lemma processObject_eq_mat (eng : Nat → Bool) (g : WState) (x : JValue)
    (hn : g.schema = none) (hge : g.sampleSize ≤ g.objectCount + 1) :
    processObject eng g x =
      batchPhase eng (createTable { g with objectCount := g.objectCount + 1 })
        (flattenObject x) := by
  unfold processObject
  dsimp only
  have hc1 : ¬ (g.schema.isNone = true ∧ g.objectCount + 1 < g.sampleSize) :=
    fun h => absurd h.2 (by omega)
  rw [if_neg hc1]
  dsimp only
  have hc2 : g.schema.isNone = true ∧ g.sampleSize ≤ g.objectCount + 1 :=
    ⟨by rw [hn]; rfl, hge⟩
  rw [if_pos hc2]
  have hc3 : (createTable { g with objectCount := g.objectCount + 1 }).schema.isSome = true := by
    rw [(createTable_fields { g with objectCount := g.objectCount + 1 }).2.2.2.2.2.2.2.2.2]
    rfl
  rw [if_pos hc3]

/-- After materialization an object bumps the counter and enters the
batching phase directly. -/
lemma processObject_eq_post (eng : Nat → Bool) (g : WState) (x : JValue)
    (hs : g.schema.isSome = true) :
    processObject eng g x =
      batchPhase eng { g with objectCount := g.objectCount + 1 } (flattenObject x) := by
  unfold processObject
  dsimp only
  have hnone : ¬ (g.schema.isNone = true) := by
    cases hopt : g.schema with
    | none => rw [hopt] at hs; exact absurd hs (by simp)
    | some s => simp
  have hc1 : ¬ (g.schema.isNone = true ∧ g.objectCount + 1 < g.sampleSize) :=
    fun h => hnone h.1
  rw [if_neg hc1]
  dsimp only
  have hc2 : ¬ (g.schema.isNone = true ∧ g.sampleSize ≤ g.objectCount + 1) :=
    fun h => hnone h.1
  rw [if_neg hc2]
  dsimp only
  rw [if_pos hs]

/-- One `processObject` step: the counter increments; the builder absorbs
the object exactly when the new count is still below the sample size; the
schema exists afterwards exactly when the new count has reached it. -/
lemma processObject_step (eng : Nat → Bool) (g : WState) (x : JValue) (n k : Nat)
    (hss : g.sampleSize = n) (hoc : g.objectCount = k)
    (hsc : g.schema.isSome ↔ n ≤ k) :
    (processObject eng g x).sampleSize = n ∧
    (processObject eng g x).objectCount = k + 1 ∧
    ((processObject eng g x).schema.isSome ↔ n ≤ k + 1) ∧
    (processObject eng g x).builder =
      (if k + 1 < n then schemaBuilderAdd g.builder (flattenObject x) else g.builder) := by
  by_cases hs : g.schema.isSome = true
  · have hnk : n ≤ k := hsc.mp hs
    rw [processObject_eq_post eng g x hs]
    obtain ⟨hb1, hb2, hb3, hb4⟩ :=
      batchPhase_fields eng { g with objectCount := g.objectCount + 1 } (flattenObject x)
    refine ⟨hb1.trans hss, hb2.trans (by rw [hoc]), ?_, ?_⟩
    · rw [hb4]
      dsimp only
      simp only [hs]
      simp
      omega
    · rw [if_neg (by omega)]
      exact hb3
  · have hn : g.schema = none := Option.not_isSome_iff_eq_none.mp hs
    have hkn : k < n := by
      by_contra hk
      exact hs (hsc.mpr (by omega))
    by_cases hlt : g.objectCount + 1 < g.sampleSize
    · have hlt2 : k + 1 < n := by rw [hoc, hss] at hlt; exact hlt
      rw [processObject_eq_pre eng g x hn hlt]
      refine ⟨hss, by rw [hoc], ?_, by rw [if_pos hlt2]⟩
      dsimp only
      simp [hn]
      omega
    · have hge : g.sampleSize ≤ g.objectCount + 1 := by omega
      have hge2 : n ≤ k + 1 := by rw [hoc, hss] at hge; exact hge
      rw [processObject_eq_mat eng g x hn hge]
      obtain ⟨hc1, hc2, hc3, hc4, hc5, hc6, hc7, hc8, hc9, hc10⟩ :=
        createTable_fields { g with objectCount := g.objectCount + 1 }
      obtain ⟨hb1, hb2, hb3, hb4⟩ :=
        batchPhase_fields eng (createTable { g with objectCount := g.objectCount + 1 })
          (flattenObject x)
      refine ⟨hb1.trans (hc1.trans hss), hb2.trans (hc3.trans (by rw [hoc])), ?_, ?_⟩
      · rw [hb4, hc10]
        simp
        omega
      · rw [if_neg (by omega)]
        exact hb3.trans hc4

/-- Sampling invariant of a full run: the object counter tracks the
stream length, the builder has absorbed exactly the first
`sampleSize − 1` objects, and the schema exists exactly when the count
has reached `sampleSize`. -/
lemma runObjects_sampling (eng : Nat → Bool) (tn : String) (b n : Nat) (hn : 1 ≤ n) :
    ∀ objs : List JValue,
      (runObjects eng (initState tn n b) objs).sampleSize = n ∧
      (runObjects eng (initState tn n b) objs).objectCount = objs.length ∧
      ((runObjects eng (initState tn n b) objs).schema.isSome ↔ n ≤ objs.length) ∧
      (runObjects eng (initState tn n b) objs).builder = buildPrefix (objs.take (n - 1)) := by
  intro objs
  induction objs using List.reverseRecOn with
  | nil =>
    have h1 : (initState tn n b).sampleSize = n := by
      unfold initState
      dsimp only
      rw [if_neg (by omega)]
    refine ⟨h1, rfl, ?_, by rw [List.take_nil]; rfl⟩
    show (none : Option (List Column)).isSome = true ↔ n ≤ 0
    simp
    omega
  | append_singleton xs x ih =>
    have hrun : runObjects eng (initState tn n b) (xs ++ [x]) =
        processObject eng (runObjects eng (initState tn n b) xs) x := by
      unfold runObjects
      rw [List.foldl_append]
      rfl
    obtain ⟨ih1, ih2, ih3, ih4⟩ := ih
    obtain ⟨hp1, hp2, hp3, hp4⟩ := processObject_step eng _ x n xs.length ih1 ih2 ih3
    rw [hrun]
    refine ⟨hp1, by rw [hp2]; simp, by simpa using hp3, ?_⟩
    rw [hp4, ih4]
    by_cases hlt : xs.length + 1 < n
    · rw [if_pos hlt]
      rw [List.take_of_length_le (l := xs ++ [x]) (by simp; omega),
        List.take_of_length_le (l := xs) (by omega)]
      unfold buildPrefix
      rw [List.foldl_append]
      rfl
    · rw [if_neg hlt]
      congr 1
      rw [List.take_append_of_le_length (by omega)]

/-- C3 (amended): for every stream, type observation feeds exactly the
first `sampleSize − 1` objects to the builder (object number
`sampleSize` is *excluded* from the sample), while materialization
fires the instant the observed-object count reaches `sampleSize`: after
any prefix of the stream the schema exists if and only if at least
`sampleSize` objects have been processed. -/
theorem c3_sampling_window (eng : Nat → Bool) (tn : String) (b n : Nat) (hn : 1 ≤ n)
    (objs : List JValue) :
    (runObjects eng (initState tn n b) objs).objectCount = objs.length ∧
    (runObjects eng (initState tn n b) objs).builder = buildPrefix (objs.take (n - 1)) ∧
    ((runObjects eng (initState tn n b) objs).schema.isSome ↔ n ≤ objs.length) := by
  obtain ⟨h1, h2, h3, h4⟩ := runObjects_sampling eng tn b n hn objs
  exact ⟨h2, h4, h3⟩

/-- C3 witness: the sampling window at a concrete two-object stream with
sampleSize 2. -/
theorem c3_sampling_window_witness :
    (runObjects engOk (initState "data" 2 1000) [aObj 1, .obj [("b", .num 2)]]).objectCount =
      ([aObj 1, .obj [("b", .num 2)]] : List JValue).length ∧
    (runObjects engOk (initState "data" 2 1000) [aObj 1, .obj [("b", .num 2)]]).builder =
      buildPrefix (([aObj 1, .obj [("b", .num 2)]] : List JValue).take (2 - 1)) ∧
    ((runObjects engOk (initState "data" 2 1000) [aObj 1, .obj [("b", .num 2)]]).schema.isSome ↔
      2 ≤ ([aObj 1, .obj [("b", .num 2)]] : List JValue).length) :=
  c3_sampling_window engOk "data" 1000 2 (by decide) [aObj 1, .obj [("b", .num 2)]]

/-- One builder observation preserves name uniqueness. -/
lemma sbObserve_names_nodup (cols : List Column) (k : String) (v : Scalar)
    (h : (cols.map Column.name).Nodup) :
    ((sbObserve cols k v).map Column.name).Nodup := by
  unfold sbObserve
  cases hf : cols.find? (fun c => c.name = k) with
  | none =>
    dsimp only
    have hmem : k ∉ cols.map Column.name := by
      intro hk
      obtain ⟨c, hc, hcn⟩ := List.mem_map.mp hk
      have := List.find?_eq_none.mp hf c hc
      simp [hcn] at this
    simp [List.nodup_append, h, hmem]
  | some c =>
    dsimp only
    split
    · have hnames : (cols.map (fun c2 => if c2.name = k then (⟨k, "TEXT"⟩ : Column) else c2)).map
          Column.name = cols.map Column.name := by
        rw [List.map_map]
        apply List.map_congr_left
        intro c2 _
        by_cases hc2 : c2.name = k
        · simp [hc2]
        · simp [hc2]
      rw [hnames]
      exact h
    · exact h

/-- Adding a whole row to the builder preserves name uniqueness. -/
lemma schemaBuilderAdd_nodup (row : Row) : ∀ cols : List Column,
    (cols.map Column.name).Nodup → ((schemaBuilderAdd cols row).map Column.name).Nodup := by
  induction row with
  | nil => intro cols h; exact h
  | cons kv rest ih =>
    intro cols h
    show ((schemaBuilderAdd (sbObserve cols kv.1 kv.2) rest).map Column.name).Nodup
    exact ih _ (sbObserve_names_nodup cols kv.1 kv.2 h)

/-- One key of the new-column scan preserves the bookkeeping invariant
(after materialization, where the scan runs). -/
lemma caStep_coreInv (st : WState) (kv : String × Scalar)
    (hs : st.schema.isSome = true) (h : coreInv st) : coreInv (caStep st kv) := by
  by_cases hc : st.existingColumnsSet.contains kv.1
  · have hstep : caStep st kv = st := by unfold caStep; rw [if_pos hc]
    rw [hstep]
    exact h
  · have hstep : caStep st kv =
        { st with pendingColumns := st.pendingColumns ++ [⟨kv.1, detectType kv.2⟩],
                  existingColumnsSet := st.existingColumnsSet ++ [kv.1] } := by
      unfold caStep
      rw [if_neg hc]
    rw [hstep]
    obtain ⟨⟨q1, q2, q3⟩, hb, hu⟩ := h
    have hkn : kv.1 ∉ st.existingColumnsSet := by
      intro hmem
      exact hc (by simpa using hmem)
    have hpend : pendingNames
        { st with pendingColumns := st.pendingColumns ++ [⟨kv.1, detectType kv.2⟩],
                  existingColumnsSet := st.existingColumnsSet ++ [kv.1] } =
        pendingNames st ++ [kv.1] := by
      unfold pendingNames
      simp
    refine ⟨⟨?_, ?_, ?_⟩, hb, ?_⟩
    · rw [hpend]
      rw [List.nodup_append]
      refine ⟨q1, by simp, ?_⟩
      intro a2 ha hb2
      simp at hb2
      subst hb2
      exact hkn (q2 kv.1 ha)
    · rw [hpend]
      intro nm hnm
      rcases List.mem_append.mp hnm with hl | hr
      · exact List.mem_append.mpr (Or.inl (q2 nm hl))
      · exact List.mem_append.mpr (Or.inr hr)
    · intro hnone
      have h2 : st.schema = none := hnone
      rw [h2] at hs
      simp at hs
    · unfold uniqueInv
      intro herr
      obtain ⟨u1, u2⟩ := hu herr
      have hknown : knownNames
          { st with pendingColumns := st.pendingColumns ++ [⟨kv.1, detectType kv.2⟩],
                    existingColumnsSet := st.existingColumnsSet ++ [kv.1] } =
          knownNames st ++ [kv.1] := by
        unfold knownNames schemaNames pendingNames
        simp
      rw [hknown]
      constructor
      · rw [List.nodup_append]
        refine ⟨u1, by simp, ?_⟩
        intro a2 ha hb2
        simp at hb2
        subst hb2
        exact hkn (u2 kv.1 ha)
      · intro nm hnm
        rcases List.mem_append.mp hnm with hl | hr
        · exact List.mem_append.mpr (Or.inl (u2 nm hl))
        · exact List.mem_append.mpr (Or.inr hr)

/-- The new-column scan's fold preserves the bookkeeping invariant. -/
lemma caFold_coreInv (row : Row) : ∀ st : WState, st.schema.isSome = true → coreInv st →
    coreInv (row.foldl caStep st) := by
  induction row with
  | nil => intro st _ h; exact h
  | cons kv rest ih =>
    intro st hs h
    show coreInv (rest.foldl caStep (caStep st kv))
    have hschema : (caStep st kv).schema = st.schema := by
      unfold caStep
      split <;> rfl
    exact ih _ (by rw [hschema]; exact hs) (caStep_coreInv st kv hs h)

/-- `checkAndAddNewColumns` preserves the bookkeeping invariant. -/
lemma checkAndAdd_coreInv (st : WState) (row : Row) (h : coreInv st) :
    coreInv (checkAndAddNewColumns st row) := by
  unfold checkAndAddNewColumns
  by_cases hn : st.schema.isNone = true
  · rw [if_pos hn]
    exact h
  · rw [if_neg hn]
    have hs : st.schema.isSome = true := by
      cases ho : st.schema with
      | none => rw [ho] at hn; exact absurd rfl hn
      | some s => rfl
    exact caFold_coreInv row st hs h

/-- Materialization preserves the bookkeeping invariant (it is invoked
only while the schema is still absent, when nothing is pending). -/
lemma createTable_coreInv (st : WState) (hn : st.schema = none) (h : coreInv st) :
    coreInv (createTable st) := by
  obtain ⟨⟨q1, q2, q3⟩, hb, hu⟩ := h
  have hpend : st.pendingColumns = [] := q3 hn
  unfold createTable
  dsimp only
  by_cases hbe : st.builder.isEmpty = true
  · rw [if_pos hbe]
    refine ⟨⟨by simp [pendingNames, hpend], by simp [pendingNames, hpend], fun _ => hpend⟩,
      hb, ?_⟩
    unfold uniqueInv
    intro herr
    simp at herr
  · rw [if_neg hbe]
    cases hd : dbCreateTable st.db st.tableName (st.builder.map fun c => sanitize c.name) with
    | ok db2 =>
      refine ⟨⟨by simp [pendingNames, hpend], by simp [pendingNames, hpend], fun _ => hpend⟩,
        hb, ?_⟩
      unfold uniqueInv
      intro herr
      constructor
      · simp [knownNames, schemaNames, pendingNames, hpend]
        exact hb
      · intro nm hnm
        simp [knownNames, schemaNames, pendingNames, hpend] at hnm
        simpa using hnm
    | error e =>
      refine ⟨⟨by simp [pendingNames, hpend], by simp [pendingNames, hpend], fun _ => hpend⟩,
        hb, ?_⟩
      unfold uniqueInv
      intro herr
      simp at herr

/-- `insertBatch` either posts no error or appends exactly one. -/
lemma insertBatch_errors (eng : Nat → Bool) (st : WState) :
    (insertBatch eng st).errors = st.errors ∨
    ∃ e, (insertBatch eng st).errors = st.errors ++ [e] := by
  unfold insertBatch
  split
  · exact Or.inl rfl
  · split
    · exact Or.inl rfl
    · split
      · exact Or.inr ⟨"Failed to insert batch: no such column", rfl⟩
      · rename_i sch hsch hprep
        dsimp only
        cases ho : (insertLoop eng st.stmtCount (st.currentBatch.map (rowValues sch))).1 with
        | ok staged => simp [ho]
        | error e => simp [ho]

/-- `insertBatch` preserves the bookkeeping invariant. -/
lemma insertBatch_coreInv (eng : Nat → Bool) (st : WState) (h : coreInv st) :
    coreInv (insertBatch eng st) := by
  obtain ⟨⟨q1, q2, q3⟩, hb, hu⟩ := h
  obtain ⟨hi1, hi2, hi3, hi4, hi5, hi6, hi7, hi8⟩ := insertBatch_fields eng st
  have hpn : pendingNames (insertBatch eng st) = pendingNames st := by
    unfold pendingNames
    rw [hi6]
  have hkn : knownNames (insertBatch eng st) = knownNames st := by
    unfold knownNames schemaNames pendingNames
    rw [hi5, hi6]
  refine ⟨⟨by rw [hpn]; exact q1, ?_, ?_⟩, by rw [hi4]; exact hb, ?_⟩
  · intro nm hnm
    rw [hi7]
    exact q2 nm (by rw [hpn] at hnm; exact hnm)
  · intro hnone
    rw [hi5] at hnone
    rw [hi6]
    exact q3 hnone
  · unfold uniqueInv
    intro herr
    cases insertBatch_errors eng st with
    | inl he =>
      rw [he] at herr
      obtain ⟨u1, u2⟩ := hu herr
      refine ⟨by rw [hkn]; exact u1, ?_⟩
      intro nm hnm
      rw [hi7]
      exact u2 nm (by rw [hkn] at hnm; exact hnm)
    | inr he =>
      obtain ⟨e, he⟩ := he
      rw [he] at herr
      simp at herr

/-- `applyPendingColumns` preserves the bookkeeping invariant. -/
lemma applyPendingColumns_coreInv (st : WState) (h : coreInv st) :
    coreInv (applyPendingColumns st) := by
  obtain ⟨⟨q1, q2, q3⟩, hb, hu⟩ := h
  unfold applyPendingColumns
  by_cases hpe : st.pendingColumns.isEmpty = true
  · rw [if_pos hpe]
    exact ⟨⟨q1, q2, q3⟩, hb, hu⟩
  · rw [if_neg hpe]
    cases hsch : st.schema with
    | none => exact ⟨⟨q1, q2, by rw [hsch] at q3; exact fun _ => q3 rfl⟩, hb, hu⟩
    | some sch =>
      dsimp only
      cases ho : (applyColsLoop st.db st.pendingColumns).outcome with
      | ok db2 =>
        simp only [ho]
        refine ⟨⟨by simp [pendingNames], by simp [pendingNames], fun _ => rfl⟩, hb, ?_⟩
        unfold uniqueInv
        intro herr
        obtain ⟨u1, u2⟩ := hu herr
        rw [knownNames, schemaNames, pendingNames] at u1 u2
        rw [hsch] at u1 u2
        constructor
        · simp only [knownNames, schemaNames, pendingNames]
          simpa using u1
        · intro nm hnm
          simp only [knownNames, schemaNames, pendingNames] at hnm
          exact u2 nm (by simpa using hnm)
      | error e =>
        simp only [ho]
        refine ⟨⟨by simpa [pendingNames] using q1, ?_, fun hcon => by simp at hcon⟩, hb, ?_⟩
        · intro nm hnm
          exact q2 nm (by simpa [pendingNames] using hnm)
        · unfold uniqueInv
          intro herr
          simp at herr

/-- The batching phase preserves the bookkeeping invariant. -/
lemma batchPhase_coreInv (eng : Nat → Bool) (st : WState) (flat : Row) (h : coreInv st) :
    coreInv (batchPhase eng st flat) := by
  unfold batchPhase
  dsimp only
  have h3 := checkAndAdd_coreInv st flat h
  have h4 : coreInv { checkAndAddNewColumns st flat with
      currentBatch := (checkAndAddNewColumns st flat).currentBatch ++ [flat] } := h3
  split
  · exact insertBatch_coreInv eng _ (applyPendingColumns_coreInv _ h4)
  · exact h4

/-- `processObject` preserves the bookkeeping invariant. -/
lemma processObject_coreInv (eng : Nat → Bool) (g : WState) (x : JValue) (h : coreInv g) :
    coreInv (processObject eng g x) := by
  by_cases hs : g.schema.isSome = true
  · rw [processObject_eq_post eng g x hs]
    exact batchPhase_coreInv eng _ _ h
  · have hn : g.schema = none := Option.not_isSome_iff_eq_none.mp hs
    by_cases hlt : g.objectCount + 1 < g.sampleSize
    · rw [processObject_eq_pre eng g x hn hlt]
      obtain ⟨hq, hb, hu⟩ := h
      exact ⟨hq, schemaBuilderAdd_nodup _ _ hb, hu⟩
    · rw [processObject_eq_mat eng g x hn (by omega)]
      exact batchPhase_coreInv eng _ _
        (createTable_coreInv { g with objectCount := g.objectCount + 1 } hn h)

/-- Finalization preserves the bookkeeping invariant. -/
lemma finalizeProcessing_coreInv (eng : Nat → Bool) (st : WState) (h : coreInv st) :
    coreInv (finalizeProcessing eng st) := by
  unfold finalizeProcessing
  dsimp only
  have hc1 : coreInv (if st.schema.isNone = true ∧ 0 < st.objectCount
      then createTable st else st) := by
    split
    · rename_i hco
      exact createTable_coreInv st (Option.isNone_iff_eq_none.mp hco.1) h
    · exact h
  have hc2 := applyPendingColumns_coreInv _ hc1
  have hc3 : ∀ s2 : WState, coreInv s2 →
      coreInv (if 0 < s2.currentBatch.length then insertBatch eng s2 else s2) := by
    intro s2 h2
    split
    · exact insertBatch_coreInv eng s2 h2
    · exact h2
  exact hc3 _ hc2

/-- The initial state satisfies the bookkeeping invariant. -/
lemma initState_coreInv (tn : String) (sample batch : Nat) :
    coreInv (initState tn sample batch) := by
  refine ⟨⟨?_, ?_, fun _ => rfl⟩, ?_, ?_⟩
  · simp [pendingNames, initState]
  · simp [pendingNames, initState]
  · simp [initState]
  · unfold uniqueInv
    intro _
    simp [knownNames, schemaNames, pendingNames, initState]

/-- A whole run preserves the bookkeeping invariant. -/
lemma runStream_coreInv (eng : Nat → Bool) (tn : String) (sample batch : Nat)
    (objs : List JValue) : coreInv (runStream eng (initState tn sample batch) objs) := by
  have hrun : ∀ (l : List JValue) (st : WState), coreInv st →
      coreInv (runObjects eng st l) := by
    intro l
    induction l with
    | nil => intro st h; exact h
    | cons x rest ih =>
      intro st h
      exact ih (processObject eng st x) (processObject_coreInv eng st x h)
  exact finalizeProcessing_coreInv eng _
    (hrun objs _ (initState_coreInv tn sample batch))

/-- C9 (amended): across every run — including runs with failed flushes —
a key is queued for migration at most once: the pending queue stays
unique by name, every queued name is in the membership set as soon as it
is queued, and nothing is queued before materialization.  The Schema's
own unique-by-name property, however, only holds as long as no error has
been reported: a failed migration flush leaves already-pushed columns in
the schema while they also remain queued, so a retried flush can append
duplicates (see the counterexample theorem). -/
theorem c9_queue_discipline (eng : Nat → Bool) (tn : String) (sample batch : Nat)
    (objs : List JValue) :
    queueInv (runStream eng (initState tn sample batch) objs) ∧
    ((runStream eng (initState tn sample batch) objs).errors = [] →
      (knownNames (runStream eng (initState tn sample batch) objs)).Nodup) := by
  have h := runStream_coreInv eng tn sample batch objs
  exact ⟨h.1, fun herr => (h.2.2 herr).1⟩

/-- C9 witness: the queue discipline and error-free schema uniqueness at
a concrete run that migrates one new column. -/
theorem c9_queue_discipline_witness :
    queueInv (runStream engOk (initState "data" 2 1)
      [aObj 1, aObj 2, .obj [("a", .num 3), ("c", .num 4)], aObj 5]) ∧
    (knownNames (runStream engOk (initState "data" 2 1)
      [aObj 1, aObj 2, .obj [("a", .num 3), ("c", .num 4)], aObj 5])).Nodup :=
  ⟨(c9_queue_discipline engOk "data" 2 1
      [aObj 1, aObj 2, .obj [("a", .num 3), ("c", .num 4)], aObj 5]).1,
   (c9_queue_discipline engOk "data" 2 1
      [aObj 1, aObj 2, .obj [("a", .num 3), ("c", .num 4)], aObj 5]).2 (by decide)⟩

/-- C10: an export request at any point after initialization returns the
engine's current snapshot and never an error — the dispatcher does not
gate export on materialization, so even before any table exists the
response is the snapshot of the (empty) database, and the session state
is untouched. -/
theorem c10_export_ungated (eng : Nat → Bool) (msgs : List Msg) (sc : ScanState) (w : WState)
    (h : (runSession eng msgs).1 = some (sc, w)) :
    runSession eng (msgs ++ [.export]) =
      (some (sc, w), (runSession eng msgs).2 ++ [.exported w.db]) := by
  have e1 : runSession eng msgs = (some (sc, w), (runSession eng msgs).2) := by
    rw [← h]
  unfold runSession at e1 ⊢
  rw [List.foldl_append, e1]
  rfl

/-- C10 witness: exporting right after an initialization and one partial
chunk — before any object has completed, let alone the table
materialized — returns the empty database snapshot and no error. -/
theorem c10_export_ungated_witness :
    runSession engOk
        ([Msg.init "data" 100 1000, Msg.chunk ("[\x7b\"id\":1".toList)] ++ [Msg.export]) =
      (some (scanFeed scanInit ("[\x7b\"id\":1".toList), initState "data" 100 1000),
       (runSession engOk [Msg.init "data" 100 1000, Msg.chunk ("[\x7b\"id\":1".toList)]).2 ++
         [Out.exported (initState "data" 100 1000).db]) :=
  c10_export_ungated engOk [Msg.init "data" 100 1000, Msg.chunk ("[\x7b\"id\":1".toList)]
    (scanFeed scanInit ("[\x7b\"id\":1".toList)) (initState "data" 100 1000) (by decide)
